import Mathlib

/-!
Verification development for the Helena events scraper (`src/ingest.py`).

The pipeline harvests event listings from ICS calendar feeds, RSS feeds and
web pages, normalizes them into a canonical record shape and posts them to a
sink.  This file gives a shallow embedding of the pure core of `ingest.py`:
string utilities (`safe_title`, `is_event_like`), date/time derivation
(`iso_date`, `iso_time`, `weekday_name` over already-parsed instants, with the
America/Denver timezone rules made explicit), the structured-data extractor's
JSON-LD / microdata / RDFa selection logic, the per-path record builders and
posting loops of `ingest_ics`, `ingest_page`, `ingest_rss`, and the retry
logic of `post_event`.

External library calls are modelled at their interface: the dateutil parser's
outcome on a raw start value is represented by the `StartVal` inductive
(absent / present-but-unparsable / parsed instant), and `hashlib.sha1`'s hex
digest is an arbitrary deterministic digest function passed as a parameter
(the claims about identifiers only need that equal inputs give equal digests).
-/

namespace Ingest

/-! ## Characters and python-like string primitives

Python `str.strip()` and the regex class `\s` treat the ASCII whitespace
characters space, tab, newline, carriage return, vertical tab and form feed
as whitespace; we model that set explicitly and work on `List Char`
(Python string indexing/length is by code point, as is `String.data`). -/

def isPySpace (c : Char) : Bool :=
  c = ' ' || c = '\t' || c = '\n' || c = '\r' || c = '\x0b' || c = '\x0c'

def pyStripL (l : List Char) : List Char :=
  ((l.dropWhile isPySpace).reverse.dropWhile isPySpace).reverse

/-- Python `s.strip()` with no arguments. -/
def pyStrip (s : String) : String :=
  String.mk (pyStripL s.data)

def asciiLowerChar (c : Char) : Char :=
  if 'A' ≤ c ∧ c ≤ 'Z' then Char.ofNat (c.toNat + 32) else c

/-- Python `s.lower()` (ASCII range; the titles and URLs involved are ASCII). -/
def strLower (s : String) : String :=
  String.mk (s.data.map asciiLowerChar)

def leadsList : List Char → List Char → Bool
  | [], _ => true
  | _ :: _, [] => false
  | a :: as, b :: bs => a = b && leadsList as bs

def hasSubList (needle : List Char) : List Char → Bool
  | [] => leadsList needle []
  | c :: rest => leadsList needle (c :: rest) || hasSubList needle rest

/-- Python `needle in hay` on strings (substring containment). -/
def strHas (hay needle : String) : Bool :=
  hasSubList needle.data hay.data

/-- Merge adjacent space characters into one. -/
def squeezeSpaces : List Char → List Char
  | [] => []
  | [c] => [c]
  | a :: b :: rest =>
      if a = ' ' ∧ b = ' ' then squeezeSpaces (b :: rest)
      else a :: squeezeSpaces (b :: rest)

/-- Collapse every maximal run of whitespace into a single space
(the effect of `re.sub(r"\s+", " ", s)`): each whitespace character
becomes a space and adjacent spaces are merged. -/
def collapseWSL (l : List Char) : List Char :=
  squeezeSpaces (l.map (fun c => if isPySpace c then ' ' else c))

/-- Python truthiness of an optional string: `None` and `""` are falsy. -/
def truthy : Option String → Bool
  | none => false
  | some s => s ≠ ""

/-- Python `a or b` on two optional strings. -/
def pyOr (a b : Option String) : Option String :=
  if truthy a then a else b

/-- Python `a or b` where the fallback `b` is a plain string. -/
def pyOrD (a : Option String) (b : String) : String :=
  match a with
  | none => b
  | some s => if s = "" then b else s

/-! ## Configuration constants (from the `Config` / posting-controls section) -/

/-- Hard cap of posts per source per run. -/
def MAX_POSTS_PER_SOURCE : Nat := 60

/-- Baseline throttle between posts, in seconds. -/
def BASE_DELAY_SEC : ℚ := 1 / 4

/-- Seconds to wait on 429/5xx, up to 3 retries. -/
def RETRY_BACKOFFS : List ℚ := [1, 2, 4]

/-- Titles to skip (case-insensitive, exact match). -/
def STOPWORD_TITLES : List String :=
  ["details", "more info", "event calendar", "submit an event",
   "submit event", "update your listing", "link to our website",
   "events", "major sports and events"]

/-- Minimum title length below which a title is discarded. -/
def MIN_TITLE_LEN : Nat := 6

/-! ## `safe_title` and `is_event_like` -/

/-- Embeds `safe_title`: trim, then collapse internal whitespace runs.
The Python argument may be `None` (`s or ""`). -/
def safe_title (s : Option String) : String :=
  String.mk (collapseWSL (pyStripL (s.getD "").data))

/-- Split a character list at the first occurrence of `sep`, returning the
pieces before and after it, or `none` when `sep` does not occur. -/
def splitFirstL (sep : List Char) : List Char → Option (List Char × List Char)
  | [] => none
  | c :: rest =>
      if leadsList sep (c :: rest) then some ([], (c :: rest).drop sep.length)
      else
        match splitFirstL sep rest with
        | some (a, b) => some (c :: a, b)
        | none => none

def cutAtChar (sep : Char) (l : List Char) : List Char :=
  l.takeWhile (fun c => c ≠ sep)

/-- Path component of a URL, as `urllib.parse.urlparse(href).path` computes it
for the absolute `http(s)` URLs and scheme-less strings this scraper sees:
the fragment (after the first `#`) and query (after the first `?`) are cut
off; with a `scheme://netloc` present the path starts at the first slash
after the authority, otherwise the whole remaining string is the path. -/
def urlPath (href : String) : String :=
  let l := cutAtChar '?' (cutAtChar '#' href.data)
  match splitFirstL "://".data l with
  | some (_, rest) =>
      match splitFirstL ['/'] rest with
      | some (_, after) => String.mk ('/' :: after)
      | none => ""
  | none => String.mk l

/-- Embeds `is_event_like(title, href)`: shared plausibility filter for a
candidate (title, link) pair.  Both arguments may be `None` in Python. -/
def is_event_like (title href : Option String) : Bool :=
  let t := pyStrip (title.getD "")
  if t = "" ∨ t.data.length < MIN_TITLE_LEN then false
  else
    let lt := strLower t
    if lt ∈ STOPWORD_TITLES then false
    else if ["details", "more info", "submit", "update", "calendar"].any
              (fun sw => strHas lt sw) then false
    else
      let path := strLower (urlPath (href.getD ""))
      if ["/event", "/events", "/whats-happening", "/whatson", "/calendar",
          "/shows", "/performances"].any (fun seg => strHas path seg) then true
      else decide (15 ≤ t.data.length)

/-! ## Calendar arithmetic and the America/Denver timezone

Dates are represented as days since the Unix epoch and instants as minutes
since the Unix epoch (the scraper only ever renders whole minutes).  The
civil-calendar conversions are the standard era-based algorithms.  The
`pytz` timezone `America/Denver` is UTC-7 (MST) outside daylight saving and
UTC-6 (MDT) inside it; under the rules in force since 2007, DST runs from
02:00 local on the second Sunday of March (09:00 UTC) to 02:00 local on the
first Sunday of November (08:00 UTC). -/

def daysFromCivil (y m d : Int) : Int :=
  let y := if m ≤ 2 then y - 1 else y
  let era := y.fdiv 400
  let yoe := y - era * 400
  let mp := (m + 9).emod 12
  let doy := (153 * mp + 2).fdiv 5 + d - 1
  let doe := yoe * 365 + yoe.fdiv 4 - yoe.fdiv 100 + doy
  era * 146097 + doe - 719468

def civilFromDays (z : Int) : Int × Int × Int :=
  let z := z + 719468
  let era := z.fdiv 146097
  let doe := z - era * 146097
  let yoe := (doe - doe.fdiv 1460 + doe.fdiv 36524 - doe.fdiv 146096).fdiv 365
  let y := yoe + era * 400
  let doy := doe - (365 * yoe + yoe.fdiv 4 - yoe.fdiv 100)
  let mp := (5 * doy + 2).fdiv 153
  let d := doy - (153 * mp + 2).fdiv 5 + 1
  let m := mp + (if mp < 10 then 3 else -9)
  (if m ≤ 2 then y + 1 else y, m, d)

/-- Weekday index of an epoch day, 0 = Monday … 6 = Sunday
(1970-01-01 was a Thursday, index 3). -/
def weekdayOfDays (z : Int) : Nat :=
  ((z + 3).emod 7).toNat

/-- Full weekday name as `strftime("%A")` renders it. -/
def weekdayNameOf (z : Int) : String :=
  ["Monday", "Tuesday", "Wednesday", "Thursday",
   "Friday", "Saturday", "Sunday"].getD (weekdayOfDays z) ""

def firstSundayOnOrAfter (z : Int) : Int :=
  z + Int.ofNat ((13 - weekdayOfDays z) % 7)

def secondSundayMarchDay (y : Int) : Int :=
  firstSundayOnOrAfter (daysFromCivil y 3 1) + 7

def firstSundayNovDay (y : Int) : Int :=
  firstSundayOnOrAfter (daysFromCivil y 11 1)

/-- UTC offset of America/Denver, in minutes, at a given UTC instant
(minutes since the epoch). -/
def denverOffsetMin (utcMin : Int) : Int :=
  let y := (civilFromDays (utcMin.fdiv 1440)).1
  let dstStart := secondSundayMarchDay y * 1440 + 9 * 60
  let dstEnd := firstSundayNovDay y * 1440 + 8 * 60
  if dstStart ≤ utcMin ∧ utcMin < dstEnd then -360 else -420

/-! ## Parsed instants and the date helpers of `ingest.py`

`dateutil.parser.parse` either fails or yields a datetime carrying its own
timezone (for a naive result, `astimezone` interprets it in the process's
local timezone, which plays the same role).  A successful parse is embedded
as the instant in UTC minutes together with that own offset. -/

structure ParsedDT where
  utcMin : Int
  ownOffsetMin : Int
deriving DecidableEq, Repr

/-- Outcome of a raw start value together with its dateutil parse:
`absent` for `None`/`""` (falsy), `unparsable` for a present value
`dateutil` raises on, `parsed p` for a successful parse. -/
inductive StartVal where
  | absent
  | unparsable
  | parsed (p : ParsedDT)
deriving DecidableEq, Repr

/-- Epoch day of the instant expressed in America/Denver local time. -/
def denverDay (p : ParsedDT) : Int :=
  (p.utcMin + denverOffsetMin p.utcMin).fdiv 1440

/-- Minute of the Denver-local day. -/
def denverMinOfDay (p : ParsedDT) : Nat :=
  ((p.utcMin + denverOffsetMin p.utcMin).emod 1440).toNat

/-- Epoch day of the instant expressed in its own timezone (no conversion);
this is what `dp.parse(str(d)).date()` yields. -/
def ownDay (p : ParsedDT) : Int :=
  (p.utcMin + p.ownOffsetMin).fdiv 1440

def digitChar (n : Nat) : Char := Char.ofNat (48 + n % 10)

def natDigitsAux : Nat → Nat → List Char
  | 0, _ => []
  | fuel + 1, n =>
      if n < 10 then [digitChar n]
      else natDigitsAux fuel (n / 10) ++ [digitChar (n % 10)]

def natToChars (n : Nat) : List Char := natDigitsAux (n + 1) n

def padZeroChars (w : Nat) (l : List Char) : List Char :=
  List.replicate (w - l.length) '0' ++ l

/-- Render an epoch day as `YYYY-MM-DD` (`date.isoformat()`; the years in
play are all positive). -/
def isoDateOfDay (z : Int) : String :=
  let c := civilFromDays z
  String.mk (padZeroChars 4 (natToChars c.1.toNat) ++ '-' ::
    padZeroChars 2 (natToChars c.2.1.toNat) ++ '-' ::
    padZeroChars 2 (natToChars c.2.2.toNat))

/-- Render a minute of the day as `strftime("%-I:%M %p")` does:
12-hour clock hour without a leading zero, two-digit minute, AM/PM. -/
def time12 (minOfDay : Nat) : String :=
  let h := minOfDay / 60
  let m := minOfDay % 60
  let h12 := if h % 12 = 0 then 12 else h % 12
  String.mk (natToChars h12 ++ ':' :: padZeroChars 2 (natToChars m) ++
    ' ' :: (if h < 12 then ['A', 'M'] else ['P', 'M']))

/-- Embeds `iso_date(d)`: `None` for a falsy or unparsable value, else the
ISO date of the instant converted to America/Denver. -/
def iso_date : StartVal → Option String
  | .parsed p => some (isoDateOfDay (denverDay p))
  | _ => none

/-- Embeds `iso_time(d)`: `None` for a falsy or unparsable value, else the
12-hour clock time of the instant converted to America/Denver. -/
def iso_time : StartVal → Option String
  | .parsed p => some (time12 (denverMinOfDay p))
  | _ => none

/-- Embeds `weekday_name(d)`: `strftime("%A")` of `dp.parse(str(d)).date()`,
the date in the value's own timezone — note there is no `astimezone` here,
unlike `iso_date`/`iso_time`.  Unparsable input (including `str(None)`)
yields `None` through the exception handler. -/
def weekday_name : StartVal → Option String
  | .parsed p => some (weekdayNameOf (ownDay p))
  | _ => none

/-! ## `sha1_id`

`sha1_id(*parts)` joins the parts (replacing falsy parts with `""`) with
the delimiter `"||"` and applies `hashlib.sha1(...).hexdigest()`.  The
digest itself is an external library primitive; it is modelled as an
arbitrary deterministic digest function passed in as a parameter, which is
all the identifier claims need (equal join strings give equal digests). -/

def joinWithL (sep : List Char) : List (List Char) → List Char
  | [] => []
  | [x] => x
  | x :: y :: rest => x ++ sep ++ joinWithL sep (y :: rest)

/-- The string `"||".join([p or "" for p in parts])` fed to `hashlib.sha1`. -/
def sha1_id_joined (parts : List (Option String)) : String :=
  String.mk (joinWithL "||".data (parts.map (fun p => (pyOrD p "").data)))

/-- Embeds `sha1_id(*parts)`, with the SHA-1 hex digest abstracted as
`digest`. -/
def sha1_id (digest : String → String) (parts : List (Option String)) : String :=
  digest (sha1_id_joined parts)

/-! ## Raw candidates (the dict shapes produced by the extractors) -/

/-- The `address` sub-object of a structured `Place`; `ingest_page` reads the
`streetAddress` / `addressLocality` / `addressRegion` properties, using each
only when it is a string (non-string values behave as absent). -/
structure PlaceAddr where
  streetAddress : Option String
  addressLocality : Option String
  addressRegion : Option String
deriving DecidableEq, Repr

/-- The raw `location` value of a candidate: absent, a plain string, or a
structured place object with a `name` (kept only when a string) and an
`address` sub-object (kept only when a dict). -/
inductive Location where
  | absent
  | str (s : String)
  | place (name : Option String) (address : Option PlaceAddr)
deriving DecidableEq, Repr

/-- The `@type` field of a JSON-LD node: a string, a list of strings, or
absent. -/
inductive JsonType where
  | absent
  | str (s : String)
  | list (ts : List String)
deriving DecidableEq, Repr

/-- Embeds the local `as_list(x)` helper: a list stays itself, a truthy
scalar becomes a one-element list, falsy becomes `[]`. -/
def asTypeList : JsonType → List String
  | .absent => []
  | .str s => if s = "" then [] else [s]
  | .list ts => ts

/-- One raw event-like node, the common projected field set every extractor
produces (JSON-LD node, microdata/RDFa projection, heuristic card).  The
start value is carried together with its dateutil parse outcome. -/
structure LdNode where
  typ : JsonType
  name : Option String
  startDate : StartVal
  location : Location
  description : Option String
  url : Option String
  identifier : Option String
  atId : Option String
deriving DecidableEq, Repr

/-- A top-level JSON-LD block: its own node fields plus the
`itemListElement` array (each element's nested `item`, `none` when that
item is missing or not a dict). -/
structure LdBlock where
  node : LdNode
  itemListElement : List (Option LdNode)
deriving DecidableEq, Repr

/-- A microdata or RDFa item as `extruct` returns it: a `type` list of type
URLs and the projected properties. -/
structure MdNode where
  type : List String
  name : Option String
  startDate : StartVal
  location : Location
  description : Option String
  url : Option String
  identifier : Option String
  id : Option String
  atId : Option String
deriving DecidableEq, Repr

/-- JSON-LD selection of `extract_structured_events`: a block whose `@type`
list contains `"Event"` is taken whole; otherwise a block whose `@type` is
exactly the string `"ItemList"` contributes each `itemListElement` entry
whose nested `item` is a dict typed `"Event"`; all other blocks contribute
nothing. -/
def ldBlockEvents (b : LdBlock) : List LdNode :=
  if "Event" ∈ asTypeList b.node.typ then [b.node]
  else if b.node.typ = JsonType.str "ItemList" then
    b.itemListElement.filterMap (fun it =>
      match it with
      | some ent => if "Event" ∈ asTypeList ent.typ then some ent else none
      | none => none)
  else []

/-- Microdata/RDFa selection: an item whose `type` list has an entry
containing `"schema.org/Event"` as a substring is projected onto the common
field set (with `@id` taken from `id` or `@id`). -/
def mdItemEvent (md : MdNode) : Option LdNode :=
  if md.type.any (fun t => strHas t "schema.org/Event") then
    some { typ := JsonType.str "Event", name := md.name,
           startDate := md.startDate, location := md.location,
           description := md.description, url := md.url,
           identifier := md.identifier, atId := pyOr md.id md.atId }
  else none

/-- Embeds `extract_structured_events(url, html)` downstream of the
`extruct.extract` library call, whose output is the three syntax-specific
lists passed in here.  The result concatenates the JSON-LD, microdata and
RDFa selections in that order. -/
def extract_structured_events (jsonld : List LdBlock)
    (microdata rdfa : List MdNode) : List LdNode :=
  (jsonld.map ldBlockEvents).flatten ++
    microdata.filterMap mdItemEvent ++ rdfa.filterMap mdItemEvent

/-! ## The canonical event record -/

/-- The canonical record `data` posted to the sink.  `cost` is always
`None` and `status` always `"active"` in the source, and `last_seen_at` is
the wall-clock time of normalization (outside the deterministic model), so
those three keys are not carried. -/
structure CanonicalEvent where
  event_name : Option String
  date : Option String
  day : Option String
  time : Option String
  host_org : String
  description : Option String
  tags : List String
  location : Option String
  address : Option String
  link : Option String
  source_id : String
deriving DecidableEq, Repr

/-! ## `ingest_page`: normalization, dedup, gate and capped posting loop -/

/-- The `location` dict (`{}` when the raw value is not a dict — note a
plain string location is discarded here). -/
def locDict : Location → Option String × Option PlaceAddr
  | .place n a => (n, a)
  | _ => (none, none)

/-- The comma-join of the address components: `", ".join(filter(None, …))`
removes falsy (absent or empty) components, then the join is stripped and
an empty result becomes `None`. -/
def addrJoin (a : Option PlaceAddr) : Option String :=
  let parts :=
    (match a with
     | some ad => [ad.streetAddress, ad.addressLocality, ad.addressRegion]
     | none => []).filterMap id |>.filter (fun s => s ≠ "")
  let joined := pyStrip (String.mk (joinWithL ", ".data (parts.map String.data)))
  if joined = "" then none else some joined

/-- The `data` dict built for one raw candidate in `ingest_page`'s loop
(lines 298–321).  `day` is `weekday_name(parsed_date) if parsed_date else
None`: reparsing the ISO string `iso_date` produced gives back the
Denver-local date, so the weekday here is that of the converted date. -/
def pageRecord (digest : String → String) (url source_name : String)
    (default_location : Option String) (used_fallback : Bool)
    (ev : LdNode) : CanonicalEvent :=
  let title := safe_title ev.name
  let link := ev.url
  let start := ev.startDate
  let loc := locDict ev.location
  let parsed_date := iso_date start
  { event_name := some title
    date := parsed_date
    day := match start with
           | .parsed p => some (weekdayNameOf (denverDay p))
           | _ => none
    time := iso_time start
    host_org := source_name
    description :=
      let d := pyStrip ((pyOrD ev.description ""))
      if d = "" then none else some d
    tags := []
    location := pyOr loc.1 default_location
    address := addrJoin loc.2
    link := some (pyOrD link url)
    source_id := pyOrD (pyOr ev.atId ev.identifier)
      ((if used_fallback then "card" else "jsonld") ++ ":" ++
        sha1_id digest [some url, some title,
          some (pyOrD (pyOr parsed_date link) "")])
  }

/-- The posting loop of `ingest_page` over the extracted candidates, with
the dedup `seen` set (as a list of keys), the `posted` counter and the cap.
A candidate whose non-empty title/link key was already seen is skipped; the
key is recorded, the record built, and dropped unless its title is truthy
and `is_event_like` accepts (title, link); an emitted record bumps
`posted`, and the loop breaks once `posted` reaches the cap.  The returned
list is the sequence of records handed to `post_event`. -/
def pageLoop (digest : String → String) (url source_name : String)
    (default_location : Option String) (used_fallback : Bool) :
    List (String × String) → Nat → Nat → List LdNode → List CanonicalEvent
  | _, _, _, [] => []
  | seen, posted, cap, ev :: rest =>
    let title := safe_title ev.name
    let link := ev.url
    let key := (strLower title, strLower (pyOrD link ""))
    if title ≠ "" ∧ key ∈ seen then
      pageLoop digest url source_name default_location used_fallback
        seen posted cap rest
    else
      let seen' := key :: seen
      let data := pageRecord digest url source_name default_location
        used_fallback ev
      if truthy data.event_name = false ∨
          is_event_like data.event_name data.link = false then
        pageLoop digest url source_name default_location used_fallback
          seen' posted cap rest
      else
        data :: (if posted + 1 ≥ cap then []
          else pageLoop digest url source_name default_location used_fallback
            seen' (posted + 1) cap rest)

/-- The records `ingest_page` posts, given the extracted raw candidates
(structured blocks, or heuristic cards when `used_fallback`). -/
def ingest_page_records (digest : String → String) (url source_name : String)
    (default_location : Option String) (used_fallback : Bool)
    (evs : List LdNode) : List CanonicalEvent :=
  pageLoop digest url source_name default_location used_fallback
    [] 0 MAX_POSTS_PER_SOURCE evs

/-! ## `ingest_ics` -/

/-- One parsed ICS calendar entry as the `ics` library exposes it:
`e.begin` is `None` or an actual datetime (so its reparse in the date
helpers always succeeds), plus name/description/location/url/uid. -/
structure IcsEvent where
  name : Option String
  begin : Option ParsedDT
  description : Option String
  location : Option String
  url : Option String
  uid : Option String
deriving DecidableEq, Repr

/-- The start value `e.begin.datetime if e.begin else None`. -/
def icsStart : Option ParsedDT → StartVal
  | some p => StartVal.parsed p
  | none => StartVal.absent

/-- The `data` dict built for one calendar entry in `ingest_ics`
(lines 221–236).  Note: no title gate, `default_location` takes priority
over the event's own location, and `day` uses `weekday_name` on the raw
start (the instant's own date, not the Denver-converted one). -/
def icsRecord (digest : String → String) (url source_name : String)
    (default_location : Option String) (e : IcsEvent) : CanonicalEvent :=
  let start := icsStart e.begin
  { event_name := some (pyStrip (e.name.getD ""))
    date := iso_date start
    day := weekday_name start
    time := iso_time start
    host_org := source_name
    description :=
      let d := pyStrip (pyOrD e.description "")
      if d = "" then none else some d
    tags := []
    location := pyOr default_location e.location
    address := none
    link := some (pyOrD e.url url)
    source_id := pyOrD e.uid
      ("ics:" ++ sha1_id digest
        [some url, some (pyStrip (e.name.getD "")), iso_date start])
  }

/-- The posting loop of `ingest_ics`: every entry is posted (no gate), and
the loop breaks once `posted` reaches the cap. -/
def icsLoop (digest : String → String) (url source_name : String)
    (default_location : Option String) :
    Nat → Nat → List IcsEvent → List CanonicalEvent
  | _, _, [] => []
  | posted, cap, e :: rest =>
    icsRecord digest url source_name default_location e ::
      (if posted + 1 ≥ cap then []
       else icsLoop digest url source_name default_location
         (posted + 1) cap rest)

/-- The records `ingest_ics` posts for a parsed calendar. -/
def ingest_ics_records (digest : String → String) (url source_name : String)
    (default_location : Option String) (events : List IcsEvent) :
    List CanonicalEvent :=
  icsLoop digest url source_name default_location 0 MAX_POSTS_PER_SOURCE events

/-! ## `ingest_rss` -/

/-- One feed entry as `feedparser` exposes it.  `start` carries the value
`entry.get("published") or entry.get("updated")` together with its dateutil
parse outcome; `tags` holds the entries' `term` values (each may be absent
or empty). -/
structure RssEntry where
  title : Option String
  start : StartVal
  summary : Option String
  tags : List (Option String)
  link : Option String
  id : Option String
deriving DecidableEq, Repr

/-- The `data` dict built for one feed entry in `ingest_rss`
(lines 341–356).  Note: the summary is truncated to 1000 characters but not
stripped, so only an exactly-empty summary becomes `None`. -/
def rssRecord (digest : String → String) (url source_name : String)
    (default_location : Option String) (e : RssEntry) : CanonicalEvent :=
  { event_name := e.title
    date := iso_date e.start
    day := weekday_name e.start
    time := iso_time e.start
    host_org := source_name
    description :=
      let d := String.mk ((e.summary.getD "").data.take 1000)
      if d = "" then none else some d
    tags := (e.tags.filterMap id).filter (fun t => t ≠ "")
    location := default_location
    address := none
    link := e.link
    source_id := "rss:" ++ sha1_id digest
      [some url, pyOr (pyOr e.id e.link) e.title]
  }

/-- The posting loop of `ingest_rss`: entries failing `is_event_like`
(title, link) are skipped; the loop breaks once `posted` reaches the
cap. -/
def rssLoop (digest : String → String) (url source_name : String)
    (default_location : Option String) :
    Nat → Nat → List RssEntry → List CanonicalEvent
  | _, _, [] => []
  | posted, cap, e :: rest =>
    let data := rssRecord digest url source_name default_location e
    if is_event_like data.event_name data.link = false then
      rssLoop digest url source_name default_location posted cap rest
    else
      data :: (if posted + 1 ≥ cap then []
        else rssLoop digest url source_name default_location
          (posted + 1) cap rest)

/-- The records `ingest_rss` posts for a parsed feed. -/
def ingest_rss_records (digest : String → String) (url source_name : String)
    (default_location : Option String) (entries : List RssEntry) :
    List CanonicalEvent :=
  rssLoop digest url source_name default_location 0 MAX_POSTS_PER_SOURCE entries

/-! ## `post_event`: throttle, retry and backoff -/

/-- Outcome of one `post_event` call against a sink, where `sink i` is the
HTTP status of the `i`-th request (0-based).  `attempts` counts requests
made, `waits` the backoff sleeps taken (the baseline `BASE_DELAY_SEC`
throttle sleep is separate and unconditional), `final` the last status
seen, and `ok` whether `raise_for_status()` passes (status < 400). -/
structure PostResult where
  attempts : Nat
  waits : List ℚ
  final : Nat
  ok : Bool
deriving DecidableEq, Repr

/-- The retry loop body: for each remaining backoff, sleep, re-post, and
break on the first status < 400. -/
def retryLoop (sink : Nat → Nat) : List ℚ → Nat → Nat × List ℚ × Nat
  | [], n => (n, [], sink (n - 1))
  | w :: ws, n =>
    let c := sink n
    if c < 400 then (n + 1, [w], c)
    else
      let r := retryLoop sink ws (n + 1)
      (r.1, w :: r.2.1, r.2.2)

/-- Embeds `post_event(data)`'s control flow: one initial request; when its
status is 429 or ≥ 500, up to `RETRY_BACKOFFS.length` retries with those
backoffs, stopping early on the first status < 400. -/
def post_event (sink : Nat → Nat) : PostResult :=
  let c0 := sink 0
  if c0 = 429 ∨ 500 ≤ c0 then
    let r := retryLoop sink RETRY_BACKOFFS 1
    { attempts := r.1, waits := r.2.1, final := r.2.2, ok := r.2.2 < 400 }
  else
    { attempts := 1, waits := [], final := c0, ok := c0 < 400 }

/-! ## Helper lemmas -/

/-- An accepted (title, link) pair has a title that is non-empty after
trimming: the classifier's first check rejects trim-empty titles. -/
lemma is_event_like_trim_ne (title href : Option String)
    (h : is_event_like title href = true) : pyStrip (title.getD "") ≠ "" := by
  intro he
  simp only [is_event_like, he] at h
  simp at h

/-- An accepted (title, link) pair has a non-empty raw title. -/
lemma is_event_like_ne_empty (title href : Option String) (t : String)
    (ht : title = some t) (h : is_event_like title href = true) : t ≠ "" := by
  intro he
  have := is_event_like_trim_ne title href h
  rw [ht, he] at this
  exact this rfl

/-- Every record produced by the page posting loop passed the delivery
gate: truthy title and classifier acceptance. -/
lemma pageLoop_mem_gate (digest : String → String) (url sn : String)
    (dl : Option String) (uf : Bool) :
    ∀ (evs : List LdNode) (seen : List (String × String)) (posted cap : Nat)
      (r : CanonicalEvent),
      r ∈ pageLoop digest url sn dl uf seen posted cap evs →
      truthy r.event_name = true ∧
        is_event_like r.event_name r.link = true := by
  intro evs
  induction evs with
  | nil => intro seen posted cap r hr; simp [pageLoop] at hr
  | cons ev rest ih =>
      intro seen posted cap r hr
      rw [pageLoop] at hr
      by_cases h1 : safe_title ev.name ≠ "" ∧
          (strLower (safe_title ev.name), strLower (pyOrD ev.url "")) ∈ seen
      · rw [if_pos h1] at hr
        exact ih _ _ _ _ hr
      · rw [if_neg h1] at hr
        by_cases h2 : truthy (pageRecord digest url sn dl uf ev).event_name
            = false ∨ is_event_like
              (pageRecord digest url sn dl uf ev).event_name
              (pageRecord digest url sn dl uf ev).link = false
        · rw [if_pos h2] at hr
          exact ih _ _ _ _ hr
        · rw [if_neg h2] at hr
          push_neg at h2
          rcases List.mem_cons.mp hr with hre | hrt
          · subst hre
            exact ⟨Bool.not_eq_false _ ▸ h2.1, Bool.not_eq_false _ ▸ h2.2⟩
          · by_cases h3 : posted + 1 ≥ cap
            · rw [if_pos h3] at hrt; simp at hrt
            · rw [if_neg h3] at hrt
              exact ih _ _ _ _ hrt

/-- Every record produced by the RSS posting loop passed the classifier
gate. -/
lemma rssLoop_mem_gate (digest : String → String) (url sn : String)
    (dl : Option String) :
    ∀ (entries : List RssEntry) (posted cap : Nat) (r : CanonicalEvent),
      r ∈ rssLoop digest url sn dl posted cap entries →
      is_event_like r.event_name r.link = true := by
  intro entries
  induction entries with
  | nil => intro posted cap r hr; simp [rssLoop] at hr
  | cons e rest ih =>
      intro posted cap r hr
      rw [rssLoop] at hr
      by_cases h1 : is_event_like (rssRecord digest url sn dl e).event_name
          (rssRecord digest url sn dl e).link = false
      · rw [if_pos h1] at hr
        exact ih _ _ _ hr
      · rw [if_neg h1] at hr
        rcases List.mem_cons.mp hr with hre | hrt
        · subst hre
          exact Bool.not_eq_false _ ▸ h1
        · by_cases h3 : posted + 1 ≥ cap
          · rw [if_pos h3] at hrt; simp at hrt
          · rw [if_neg h3] at hrt
            exact ih _ _ _ hrt

/-- The page posting loop emits at most `cap - posted` further records. -/
lemma pageLoop_length_le (digest : String → String) (url sn : String)
    (dl : Option String) (uf : Bool) :
    ∀ (evs : List LdNode) (seen : List (String × String)) (posted cap : Nat),
      posted < cap →
      (pageLoop digest url sn dl uf seen posted cap evs).length ≤
        cap - posted := by
  intro evs
  induction evs with
  | nil => intro seen posted cap _; simp [pageLoop]
  | cons ev rest ih =>
      intro seen posted cap hpc
      rw [pageLoop]
      by_cases h1 : safe_title ev.name ≠ "" ∧
          (strLower (safe_title ev.name), strLower (pyOrD ev.url "")) ∈ seen
      · rw [if_pos h1]; exact ih _ _ _ hpc
      · rw [if_neg h1]
        by_cases h2 : truthy (pageRecord digest url sn dl uf ev).event_name
            = false ∨ is_event_like
              (pageRecord digest url sn dl uf ev).event_name
              (pageRecord digest url sn dl uf ev).link = false
        · rw [if_pos h2]; exact ih _ _ _ hpc
        · rw [if_neg h2]
          by_cases h3 : posted + 1 ≥ cap
          · rw [if_pos h3]; simp; omega
          · rw [if_neg h3]
            have := ih (( strLower (safe_title ev.name),
              strLower (pyOrD ev.url "")) :: seen) (posted + 1) cap (by omega)
            simp only [List.length_cons]
            omega

/-- Dropping a matched initial segment can only shorten a list. -/
lemma dropWhileLenLe (p : Char → Bool) : ∀ l : List Char,
    (l.dropWhile p).length ≤ l.length := by
  intro l
  induction l with
  | nil => simp
  | cons a rest ih =>
      rw [List.dropWhile_cons]
      cases hpa : p a with
      | true => simp only [if_pos rfl]; simp; omega
      | false => simp

/-- A full-length `dropWhile` result is the whole list. -/
lemma dropWhileEqSelfOfLength (p : Char → Bool) (l : List Char)
    (h : (l.dropWhile p).length = l.length) : l.dropWhile p = l := by
  cases l with
  | nil => rfl
  | cons a rest =>
      rw [List.dropWhile_cons] at h ⊢
      cases hpa : p a with
      | true =>
          exfalso
          have := dropWhileLenLe p rest
          simp [hpa] at h
          omega
      | false => simp

/-- The ICS posting loop emits at most `cap - posted` further records. -/
lemma icsLoop_length_le (digest : String → String) (url sn : String)
    (dl : Option String) :
    ∀ (evs : List IcsEvent) (posted cap : Nat),
      posted < cap →
      (icsLoop digest url sn dl posted cap evs).length ≤ cap - posted := by
  intro evs
  induction evs with
  | nil => intro posted cap _; simp [icsLoop]
  | cons e rest ih =>
      intro posted cap hpc
      rw [icsLoop]
      by_cases h : posted + 1 ≥ cap
      · rw [if_pos h]
        simp
        omega
      · rw [if_neg h]
        have := ih (posted + 1) cap (by omega)
        simp only [List.length_cons]
        omega

/-- The RSS posting loop emits at most `cap - posted` further records. -/
lemma rssLoop_length_le (digest : String → String) (url sn : String)
    (dl : Option String) :
    ∀ (entries : List RssEntry) (posted cap : Nat),
      posted < cap →
      (rssLoop digest url sn dl posted cap entries).length ≤ cap - posted := by
  intro entries
  induction entries with
  | nil => intro posted cap _; simp [rssLoop]
  | cons e rest ih =>
      intro posted cap hpc
      rw [rssLoop]
      by_cases hg : is_event_like (rssRecord digest url sn dl e).event_name
          (rssRecord digest url sn dl e).link = false
      · rw [if_pos hg]
        exact ih _ _ hpc
      · rw [if_neg hg]
        by_cases h : posted + 1 ≥ cap
        · rw [if_pos h]
          simp
          omega
        · rw [if_neg h]
          have := ih (posted + 1) cap (by omega)
          simp only [List.length_cons]
          omega

/-- A character list that `dropWhile` leaves unchanged does not start with
a matching character. -/
lemma headNot_of_dropWhile_eq (p : Char → Bool) (l : List Char)
    (h : l.dropWhile p = l) : ∀ c, l.head? = some c → p c = false := by
  intro c hc
  cases l with
  | nil => simp at hc
  | cons a rest =>
      simp only [List.head?_cons, Option.some.injEq] at hc
      rw [← hc]
      cases hpa : p a with
      | false => rfl
      | true =>
          exfalso
          rw [List.dropWhile_cons, hpa] at h
          have := dropWhileLenLe p rest
          have hlen := congrArg List.length h
          simp at hlen
          omega

/-- A character list not starting with a matching character is unchanged by
`dropWhile`. -/
lemma dropWhile_eq_of_headNot (p : Char → Bool) (l : List Char)
    (h : ∀ c, l.head? = some c → p c = false) : l.dropWhile p = l := by
  cases l with
  | nil => rfl
  | cons a rest =>
      rw [List.dropWhile_cons, h a (by simp)]
      simp

/-- Characterization of strip-clean lists through their two ends. -/
lemma pyStripL_eq_self_iff (l : List Char) :
    pyStripL l = l ↔
      (∀ c, l.head? = some c → isPySpace c = false) ∧
      (∀ c, l.reverse.head? = some c → isPySpace c = false) := by
  constructor
  · intro h
    have h1 : l.dropWhile isPySpace = l := by
      apply dropWhileEqSelfOfLength
      have hle1 : (pyStripL l).length ≤ (l.dropWhile isPySpace).length := by
        unfold pyStripL
        rw [List.length_reverse]
        calc ((l.dropWhile isPySpace).reverse.dropWhile isPySpace).length
            ≤ (l.dropWhile isPySpace).reverse.length :=
              dropWhileLenLe _ _
          _ = (l.dropWhile isPySpace).length := List.length_reverse _
      have hle2 : (l.dropWhile isPySpace).length ≤ l.length :=
        dropWhileLenLe _ _
      have := congrArg List.length h
      omega
    refine ⟨headNot_of_dropWhile_eq _ _ h1, ?_⟩
    have h2 : l.reverse.dropWhile isPySpace = l.reverse := by
      unfold pyStripL at h
      rw [h1] at h
      have := congrArg List.reverse h
      rwa [List.reverse_reverse] at this
    exact headNot_of_dropWhile_eq _ _ h2
  · rintro ⟨h1, h2⟩
    unfold pyStripL
    rw [dropWhile_eq_of_headNot _ _ h1, dropWhile_eq_of_headNot _ _ h2,
      List.reverse_reverse]

/-- The head of an append with a non-empty first part. -/
lemma head?_append_of_ne (x y : List Char) (hx : x ≠ []) :
    (x ++ y).head? = x.head? := by
  cases x with
  | nil => exact absurd rfl hx
  | cons a rest => rfl

lemma joinWithL_single (sep x : List Char) : joinWithL sep [x] = x := rfl

lemma joinWithL_cons₂ (sep x y : List Char) (rest : List (List Char)) :
    joinWithL sep (x :: y :: rest) = x ++ sep ++ joinWithL sep (y :: rest) :=
  rfl

lemma joinWithL_ne_nil (sep : List Char) (x : List Char) (xs : List (List Char))
    (hx : x ≠ []) : joinWithL sep (x :: xs) ≠ [] := by
  cases xs with
  | nil => rw [joinWithL_single]; exact hx
  | cons y rest =>
      rw [joinWithL_cons₂]
      cases x with
      | nil => exact absurd rfl hx
      | cons a r => simp

lemma joinWithL_head? (sep : List Char) (x : List Char) (xs : List (List Char))
    (hx : x ≠ []) : (joinWithL sep (x :: xs)).head? = x.head? := by
  cases xs with
  | nil => rw [joinWithL_single]
  | cons y rest =>
      rw [joinWithL_cons₂, List.append_assoc]
      exact head?_append_of_ne _ _ hx

/-- The reverse of the comma-join of non-empty parts starts with the
reverse of the last part. -/
lemma joinWithL_reverse_head? (sep : List Char) :
    ∀ (x : List Char) (xs : List (List Char)),
      (∀ l ∈ x :: xs, l ≠ []) →
      (joinWithL sep (x :: xs)).reverse.head? =
        ((x :: xs).getLast (by simp)).reverse.head? := by
  intro x xs
  induction xs generalizing x with
  | nil => intro _; simp [joinWithL]
  | cons y rest ih =>
      intro hne
      have hy : ∀ l ∈ y :: rest, l ≠ [] := by
        intro l hl; exact hne l (List.mem_cons_of_mem _ hl)
      rw [joinWithL_cons₂]
      rw [List.reverse_append]
      rw [head?_append_of_ne _ _ (by
        simp only [ne_eq, List.reverse_eq_nil_iff]
        exact joinWithL_ne_nil sep y rest (hy y (by simp)))]
      rw [ih y hy]
      have : (x :: y :: rest).getLast (by simp) =
          (y :: rest).getLast (by simp) := by
        simp [List.getLast_cons]
      rw [this]

/-- Strip is the identity on the comma-join of strip-clean, non-empty
parts. -/
lemma pyStripL_joinWithL (sep : List Char) (x : List Char)
    (xs : List (List Char))
    (hne : ∀ l ∈ x :: xs, l ≠ [])
    (hclean : ∀ l ∈ x :: xs, pyStripL l = l) :
    pyStripL (joinWithL sep (x :: xs)) = joinWithL sep (x :: xs) := by
  rw [pyStripL_eq_self_iff]
  constructor
  · intro c hc
    rw [joinWithL_head? sep x xs (hne x (by simp))] at hc
    exact ((pyStripL_eq_self_iff x).mp (hclean x (by simp))).1 c hc
  · intro c hc
    rw [joinWithL_reverse_head? sep x xs hne] at hc
    have hlast := List.getLast_mem (l := x :: xs) (by simp)
    exact ((pyStripL_eq_self_iff _).mp (hclean _ hlast)).2 c hc

/-- A non-empty string has a non-empty character list. -/
lemma data_ne_nil_of_ne (s : String) (h : s ≠ "") : s.data ≠ [] := by
  intro hd
  apply h
  cases s with
  | mk l =>
      simp only [String.data] at hd
      subst hd
      rfl

/-- A string with a non-empty character list is non-empty. -/
lemma mk_ne_empty_of_ne (l : List Char) (h : l ≠ []) : String.mk l ≠ "" := by
  intro he
  apply h
  have := congrArg String.data he
  simpa using this

/-- Address derivation as the specification words it: the comma-join of the
non-empty street/locality/region components, absent when no component
remains.  Compared against the code's `addrJoin` (which additionally strips
the joined string) in the C5 theorem. -/
def specAddress (a : PlaceAddr) : Option String :=
  let parts := ([a.streetAddress, a.addressLocality,
    a.addressRegion].filterMap id).filter (fun s => s ≠ "")
  match parts with
  | [] => none
  | x :: xs => some (String.mk (joinWithL ", ".data ((x :: xs).map String.data)))

/-- For trim-clean components the code's join-then-strip agrees with the
specification's join of non-empty components. -/
lemma addrJoin_eq_specAddress (a : PlaceAddr)
    (hclean : ∀ s : String,
      (a.streetAddress = some s ∨ a.addressLocality = some s ∨
        a.addressRegion = some s) → pyStrip s = s) :
    addrJoin (some a) = specAddress a := by
  have hmem : ∀ s ∈ ([a.streetAddress, a.addressLocality,
      a.addressRegion].filterMap id).filter (fun s => s ≠ ""),
      s ≠ "" ∧ pyStrip s = s := by
    intro s hs
    rw [List.mem_filter] at hs
    obtain ⟨hs1, hs2⟩ := hs
    rw [List.mem_filterMap] at hs1
    obtain ⟨o, ho, hoo⟩ := hs1
    refine ⟨by simpa using hs2, ?_⟩
    apply hclean
    simp only [List.mem_cons, List.mem_singleton] at ho
    rcases ho with h | h | h | h
    · left; rw [← h]; exact hoo
    · right; left; rw [← h]; exact hoo
    · right; right; rw [← h]; exact hoo
    · simp at h
  unfold addrJoin specAddress
  cases hp : ([a.streetAddress, a.addressLocality,
      a.addressRegion].filterMap id).filter (fun s => s ≠ "") with
  | nil =>
      simp only [hp]
      rfl
  | cons x xs =>
      rw [hp] at hmem
      have hne : ∀ l ∈ (x :: xs).map String.data, l ≠ [] := by
        intro l hl
        rw [List.mem_map] at hl
        obtain ⟨s, hs, hsl⟩ := hl
        rw [← hsl]
        exact data_ne_nil_of_ne s (hmem s hs).1
      have hcl : ∀ l ∈ (x :: xs).map String.data, pyStripL l = l := by
        intro l hl
        rw [List.mem_map] at hl
        obtain ⟨s, hs, hsl⟩ := hl
        rw [← hsl]
        exact congrArg String.data (hmem s hs).2
      have hmap : (x :: xs).map String.data =
          x.data :: xs.map String.data := rfl
      have hstrip : pyStrip (String.mk (joinWithL ", ".data
          ((x :: xs).map String.data))) =
          String.mk (joinWithL ", ".data ((x :: xs).map String.data)) := by
        show String.mk (pyStripL _) = _
        rw [hmap] at hne hcl ⊢
        rw [pyStripL_joinWithL _ _ _ hne hcl]
      simp only [hp, hmap] at *
      rw [hstrip]
      rw [if_neg (mk_ne_empty_of_ne _
        (joinWithL_ne_nil _ _ _ (hne x.data (by simp))))]

/-! ## Claim theorems -/

/-- C10: `sha1_id` is not injective on its argument tuple.  Whatever the
digest function is, a `None` part and an empty-string part feed it the same
join string, and so do two tuples whose characters shift across the `"||"`
delimiter, so distinct `(url, title, date-or-link)` combinations receive
the identical hash-based identifier. -/
theorem sha1_id_not_injective :
    ∀ digest : String → String,
      (sha1_id digest [some "a|", some "b"] =
          sha1_id digest [some "a", some "|b"] ∧
        ([some "a|", some "b"] : List (Option String)) ≠
          [some "a", some "|b"]) ∧
      (sha1_id digest [none, some "x"] = sha1_id digest [some "", some "x"] ∧
        ([none, some "x"] : List (Option String)) ≠ [some "", some "x"]) := by
  intro digest
  refine ⟨⟨?_, by decide⟩, ⟨?_, by decide⟩⟩
  · show digest (sha1_id_joined _) = digest (sha1_id_joined _)
    exact congrArg digest (by decide)
  · show digest (sha1_id_joined _) = digest (sha1_id_joined _)
    exact congrArg digest (by decide)

/-- Normal form of `post_event`: one initial request, and when its status
is in the 429/5xx class, retries with backoffs 1, 2, 4 that stop on the
first status < 400. -/
lemma post_event_eq (sink : Nat → Nat) :
    post_event sink =
      if sink 0 = 429 ∨ 500 ≤ sink 0 then
        (if sink 1 < 400 then
          { attempts := 2, waits := [1], final := sink 1,
            ok := decide (sink 1 < 400) }
        else if sink 2 < 400 then
          { attempts := 3, waits := [1, 2], final := sink 2,
            ok := decide (sink 2 < 400) }
        else
          { attempts := 4, waits := [1, 2, 4], final := sink 3,
            ok := decide (sink 3 < 400) })
      else
        { attempts := 1, waits := [], final := sink 0,
          ok := decide (sink 0 < 400) } := by
  by_cases h0 : sink 0 = 429 ∨ 500 ≤ sink 0
  · by_cases h1 : sink 1 < 400
    · simp [post_event, retryLoop, RETRY_BACKOFFS, h0, h1]
    · by_cases h2 : sink 2 < 400
      · simp [post_event, retryLoop, RETRY_BACKOFFS, h0, h1, h2]
      · simp [post_event, retryLoop, RETRY_BACKOFFS, h0, h1, h2]
  · simp [post_event, h0]

/-- C3 (amended): `post_event` retries only when the *first* response is in
the 429/5xx class — so a first-response client error is never retried — and
then takes up to three more attempts with backoffs 1s, 2s, 4s; but the
retry loop stops early on the first response with status < 400 (the
success class), not on the first response outside the 429/5xx class.  With
responses 429, 429, 200 exactly three attempts occur and the call reports
success. -/
theorem post_event_retry_policy :
    ∀ sink : Nat → Nat,
      (¬(sink 0 = 429 ∨ 500 ≤ sink 0) →
        (post_event sink).attempts = 1 ∧ (post_event sink).waits = []) ∧
      (post_event sink).attempts ≤ 1 + RETRY_BACKOFFS.length ∧
      (post_event sink).waits =
        RETRY_BACKOFFS.take ((post_event sink).attempts - 1) ∧
      ((sink 0 = 429 ∨ 500 ≤ sink 0) → sink 1 < 400 →
        (post_event sink).attempts = 2) ∧
      (sink 0 = 429 → sink 1 = 429 → sink 2 = 200 →
        (post_event sink).attempts = 3 ∧ (post_event sink).ok = true) := by
  intro sink
  rw [post_event_eq]
  by_cases h0 : sink 0 = 429 ∨ 500 ≤ sink 0
  · by_cases h1 : sink 1 < 400
    · simp only [if_pos h0, if_pos h1]
      refine ⟨?_, ?_, ?_, ?_, ?_⟩
      · intro hc; exact absurd h0 hc
      · simp [RETRY_BACKOFFS]
      · simp [RETRY_BACKOFFS]
      · intro _ _; trivial
      · intro _ hs1 _; exact absurd (hs1 ▸ h1) (by decide)
    · by_cases h2 : sink 2 < 400
      · simp only [if_pos h0, if_neg h1, if_pos h2]
        refine ⟨?_, ?_, ?_, ?_, ?_⟩
        · intro hc; exact absurd h0 hc
        · simp [RETRY_BACKOFFS]
        · simp [RETRY_BACKOFFS]
        · intro _ hs1; exact absurd hs1 h1
        · intro _ _ hs2; exact ⟨by trivial, by simp [h2]⟩
      · simp only [if_pos h0, if_neg h1, if_neg h2]
        refine ⟨?_, ?_, ?_, ?_, ?_⟩
        · intro hc; exact absurd h0 hc
        · simp [RETRY_BACKOFFS]
        · simp [RETRY_BACKOFFS]
        · intro _ hs1; exact absurd hs1 h1
        · intro _ _ hs2; exact absurd (hs2 ▸ h2) (by decide)
  · simp only [if_neg h0]
    refine ⟨?_, ?_, ?_, ?_, ?_⟩
    · intro _; exact ⟨by trivial, by trivial⟩
    · simp [RETRY_BACKOFFS]
    · simp [RETRY_BACKOFFS]
    · intro hc; exact absurd hc h0
    · intro hs0 _ _; exact absurd (Or.inl hs0) h0

/-- A sink answering 429, then 404, then 418, then 200 to successive
attempts. -/
def sinkMixed : Nat → Nat
  | 0 => 429
  | 1 => 404
  | 2 => 418
  | _ => 200

/-- C3 counterexample: after an initial 429, the second response 404 is in
the client-error class — outside the 429/5xx class — yet the loop performs
two further attempts (four in total), because it only stops on a status
< 400.  So the client is not "stopping early on the first response outside
that class", and a client-error response *is* followed by retries. -/
theorem post_event_no_stop_on_client_error :
    (post_event sinkMixed).attempts = 4 ∧
      sinkMixed 1 = 404 ∧
      ¬(sinkMixed 1 = 429 ∨ 500 ≤ sinkMixed 1) ∧
      (post_event sinkMixed).waits = [1, 2, 4] := by
  refine ⟨?_, rfl, by decide, ?_⟩ <;>
    simp [post_event_eq, sinkMixed]

/-- A sink answering 429 twice and then 200. -/
def sink429Twice : Nat → Nat
  | 0 => 429
  | 1 => 429
  | _ => 200

/-- Witness for the amended C3 theorem at the 429/429/200 sink: exactly
three attempts and reported success. -/
theorem post_event_retry_policy_witness :
    (post_event sink429Twice).attempts = 3 ∧
      (post_event sink429Twice).ok = true :=
  (post_event_retry_policy sink429Twice).2.2.2.2 rfl rfl rfl

/-- C7: on the page and RSS paths a start value that fails date parsing
leaves `date`, `day` and `time` all absent — never partially populated and
never defaulted to the current time (the builders contain no wall-clock
fallback for these fields).  On the ICS path the start is an already-parsed
datetime or absent, so an unparsable start cannot occur there. -/
theorem unparsable_start_all_absent :
    ∀ (digest : String → String) (url sn : String) (dl : Option String)
      (uf : Bool) (ev : LdNode) (e : RssEntry),
      (ev.startDate = StartVal.unparsable →
        (pageRecord digest url sn dl uf ev).date = none ∧
        (pageRecord digest url sn dl uf ev).day = none ∧
        (pageRecord digest url sn dl uf ev).time = none) ∧
      (e.start = StartVal.unparsable →
        (rssRecord digest url sn dl e).date = none ∧
        (rssRecord digest url sn dl e).day = none ∧
        (rssRecord digest url sn dl e).time = none) := by
  intro digest url sn dl uf ev e
  constructor
  · intro h
    refine ⟨?_, ?_, ?_⟩ <;> simp [pageRecord, iso_date, iso_time, h]
  · intro h
    refine ⟨?_, ?_, ?_⟩ <;>
      simp [rssRecord, iso_date, iso_time, weekday_name, h]

/-- A page candidate whose start value the date parser rejects. -/
def unparsableNode : LdNode :=
  { typ := JsonType.str "Event", name := some "Gallery Walk Evening Stroll",
    startDate := StartVal.unparsable, location := Location.absent,
    description := none, url := some "https://ex.org/events/9",
    identifier := none, atId := none }

/-- A feed entry whose published value the date parser rejects. -/
def unparsableEntry : RssEntry :=
  { title := some "Gallery Walk Evening Stroll",
    start := StartVal.unparsable, summary := none, tags := [],
    link := some "https://ex.org/events/9", id := none }

/-- Witness for the C7 theorem at concrete unparsable-start candidates. -/
theorem unparsable_start_all_absent_witness :
    (pageRecord (fun s => s) "https://ex.org/p" "Org" none false
        unparsableNode).date = none ∧
      (pageRecord (fun s => s) "https://ex.org/p" "Org" none false
        unparsableNode).day = none ∧
      (pageRecord (fun s => s) "https://ex.org/p" "Org" none false
        unparsableNode).time = none ∧
      (rssRecord (fun s => s) "https://ex.org/feed" "Org" none
        unparsableEntry).date = none ∧
      (rssRecord (fun s => s) "https://ex.org/feed" "Org" none
        unparsableEntry).day = none ∧
      (rssRecord (fun s => s) "https://ex.org/feed" "Org" none
        unparsableEntry).time = none := by
  have hp := (unparsable_start_all_absent (fun s => s) "https://ex.org/p"
    "Org" none false unparsableNode unparsableEntry).1 rfl
  have hr := (unparsable_start_all_absent (fun s => s) "https://ex.org/feed"
    "Org" none false unparsableNode unparsableEntry).2 rfl
  exact ⟨hp.1, hp.2.1, hp.2.2, hr.1, hr.2.1, hr.2.2⟩

/-- C9 (amended): the page and ICS builders drop a description that is
empty after trimming, but the RSS builder only truncates the summary to
1000 characters and drops the exactly-empty string, so a whitespace-only
feed summary is delivered as a present `description`. -/
theorem description_empty_after_trim :
    ∀ (digest : String → String) (url sn : String) (dl : Option String)
      (uf : Bool) (ev : LdNode) (ie : IcsEvent) (fe : RssEntry) (s : String),
      (pyStrip (pyOrD ev.description "") = "" →
        (pageRecord digest url sn dl uf ev).description = none) ∧
      (pyStrip (pyOrD ie.description "") = "" →
        (icsRecord digest url sn dl ie).description = none) ∧
      (fe.summary = some s → s ≠ "" →
        (rssRecord digest url sn dl fe).description =
          some (String.mk (s.data.take 1000))) := by
  intro digest url sn dl uf ev ie fe s
  refine ⟨?_, ?_, ?_⟩
  · intro h
    simp [pageRecord, h]
  · intro h
    simp [icsRecord, h]
  · intro hsum hne
    have hd : s.data ≠ [] := data_ne_nil_of_ne s hne
    have htk : s.data.take 1000 ≠ [] := by
      cases hsd : s.data with
      | nil => exact absurd hsd hd
      | cons c cs => simp
    simp only [rssRecord, hsum, Option.getD_some]
    rw [if_neg (mk_ne_empty_of_ne _ htk)]

/-- A feed entry whose summary is a single space. -/
def wsSummaryEntry : RssEntry :=
  { title := some "Downtown Summer Concert Series",
    start := StartVal.absent, summary := some " ", tags := [],
    link := some "https://ex.org/x", id := none }

/-- C9 counterexample: the RSS path emits a record whose `description` is
the whitespace-only string `" "`, although that raw summary is empty after
trimming — so the "absent if empty after trim" rule does not hold on the
RSS path. -/
theorem rss_whitespace_description_present :
    ((ingest_rss_records (fun s => s) "https://ex.org/feed" "Org" none
        [wsSummaryEntry]).map (fun r => r.description)) = [some " "] ∧
      pyStrip " " = "" := by decide

/-- A page candidate whose description is whitespace only. -/
def wsDescNode : LdNode :=
  { unparsableNode with description := some "   " }

/-- A calendar entry whose description is whitespace only. -/
def wsDescIcsEvent : IcsEvent :=
  { name := some "Art Walk", begin := none, description := some " \t ",
    location := none, url := none, uid := none }

/-- Witness for the C9 theorem at concrete records: a whitespace-only page
description is dropped, a whitespace-only ICS description is dropped, and
a non-empty RSS summary is kept verbatim (truncated). -/
theorem description_empty_after_trim_witness :
    (pageRecord (fun s => s) "https://ex.org/p" "Org" none false
        wsDescNode).description = none ∧
      (icsRecord (fun s => s) "https://ex.org/cal.ics" "Org" none
        wsDescIcsEvent).description = none ∧
      (rssRecord (fun s => s) "https://ex.org/feed" "Org" none
        wsSummaryEntry).description = some (String.mk (" ".data.take 1000)) := by
  have h := description_empty_after_trim (fun s => s) "https://ex.org/p"
    "Org" none false wsDescNode wsDescIcsEvent wsSummaryEntry " "
  have h2 := description_empty_after_trim (fun s => s) "https://ex.org/cal.ics"
    "Org" none false wsDescNode wsDescIcsEvent wsSummaryEntry " "
  have h3 := description_empty_after_trim (fun s => s) "https://ex.org/feed"
    "Org" none false wsDescNode wsDescIcsEvent wsSummaryEntry " "
  exact ⟨h.1 (by decide), h2.2.1 (by decide), h3.2.2 rfl (by decide)⟩

/-- C8: JSON-LD selection of the structured-data extractor.  A block whose
declared type list contains `"Event"` yields exactly that block as one raw
candidate; a block typed `"ItemList"` is unwrapped exactly one level,
yielding each list element whose nested item is typed `"Event"` — in
particular, an ItemList with two items of which exactly one is an Event
yields exactly that one candidate. -/
theorem extract_structured_jsonld_selection :
    ∀ (b : LdBlock) (e1 e0 : LdNode),
      ("Event" ∈ asTypeList b.node.typ →
        extract_structured_events [b] [] [] = [b.node]) ∧
      (b.node.typ = JsonType.str "ItemList" →
        b.itemListElement = [some e1, some e0] →
        "Event" ∈ asTypeList e1.typ →
        "Event" ∉ asTypeList e0.typ →
        extract_structured_events [b] [] [] = [e1]) := by
  intro b e1 e0
  constructor
  · intro h
    simp [extract_structured_events, ldBlockEvents, h]
  · intro ht hil h1 h0
    have hnot : "Event" ∉ asTypeList (JsonType.str "ItemList") := by
      simp [asTypeList]
    simp [extract_structured_events, ldBlockEvents, ht, hnot, hil, h1, h0]

/-- A list item typed (multi-typed) as an Event. -/
def eventItemNode : LdNode :=
  { typ := JsonType.list ["Thing", "Event"],
    name := some "Riverfront Art Festival", startDate := StartVal.absent,
    location := Location.absent, description := none,
    url := some "https://ex.org/events/art", identifier := none,
    atId := none }

/-- A list item that is not an Event. -/
def nonEventItemNode : LdNode :=
  { typ := JsonType.str "Thing", name := some "About Us",
    startDate := StartVal.absent, location := Location.absent,
    description := none, url := some "https://ex.org/about",
    identifier := none, atId := none }

/-- The bare node of an `ItemList`-typed block. -/
def itemListNode : LdNode :=
  { typ := JsonType.str "ItemList", name := none,
    startDate := StartVal.absent, location := Location.absent,
    description := none, url := none, identifier := none, atId := none }

/-- A block typed exactly `"ItemList"` holding one Event and one non-Event
item. -/
def itemListBlock : LdBlock :=
  { node := itemListNode,
    itemListElement := [some eventItemNode, some nonEventItemNode] }

/-- A node typed directly as an Event. -/
def eventBlockNode : LdNode :=
  { typ := JsonType.str "Event", name := some "Harvest Festival",
    startDate := StartVal.absent, location := Location.absent,
    description := none, url := some "https://ex.org/events/harvest",
    identifier := none, atId := none }

/-- A block typed directly as an Event. -/
def eventBlock : LdBlock :=
  { node := eventBlockNode, itemListElement := [] }

/-- Witness for the C8 theorem: the Event-typed block yields itself, and
the two-item ItemList block yields exactly its Event-typed item. -/
theorem extract_structured_jsonld_selection_witness :
    extract_structured_events [eventBlock] [] [] = [eventBlock.node] ∧
      extract_structured_events [itemListBlock] [] [] = [eventItemNode] := by
  have h1 := (extract_structured_jsonld_selection eventBlock eventItemNode
    nonEventItemNode).1 (by simp [eventBlock, eventBlockNode, asTypeList])
  have h2 := (extract_structured_jsonld_selection itemListBlock eventItemNode
    nonEventItemNode).2 (by rfl) (by rfl)
    (by simp [eventItemNode, asTypeList])
    (by simp [nonEventItemNode, asTypeList])
  exact ⟨h1, h2⟩

/-- C1 (amended): every record the page pipeline (structured extraction or
heuristic cards) or the RSS pipeline hands to the sink passed the delivery
gate — `is_event_like` accepts its (title, link) pair and its title is
non-empty after trimming.  (The ICS pipeline posts without this gate; see
the C1 counterexample.) -/
theorem delivery_gate_page_rss :
    (∀ (digest : String → String) (url sn : String) (dl : Option String)
        (uf : Bool) (evs : List LdNode) (r : CanonicalEvent),
        r ∈ ingest_page_records digest url sn dl uf evs →
        is_event_like r.event_name r.link = true ∧
          pyStrip (r.event_name.getD "") ≠ "") ∧
    (∀ (digest : String → String) (url sn : String) (dl : Option String)
        (entries : List RssEntry) (r : CanonicalEvent),
        r ∈ ingest_rss_records digest url sn dl entries →
        is_event_like r.event_name r.link = true ∧
          pyStrip (r.event_name.getD "") ≠ "") := by
  constructor
  · intro digest url sn dl uf evs r hr
    have h := pageLoop_mem_gate digest url sn dl uf evs []
      0 MAX_POSTS_PER_SOURCE r hr
    exact ⟨h.2, is_event_like_trim_ne _ _ h.2⟩
  · intro digest url sn dl entries r hr
    have h := rssLoop_mem_gate digest url sn dl entries
      0 MAX_POSTS_PER_SOURCE r hr
    exact ⟨h, is_event_like_trim_ne _ _ h⟩

/-- A calendar entry with no name at all. -/
def untitledIcsEvent : IcsEvent :=
  { name := none, begin := none, description := none, location := none,
    url := none, uid := none }

/-- C1 counterexample: the ICS pipeline delivers a record whose
`event_name` is the empty string and which the TitleClassifier rejects —
so not every emitted record is gated by the classifier before delivery. -/
theorem ics_delivers_ungated_record :
    ((ingest_ics_records (fun s => s) "https://ex.org/cal.ics" "Org" none
        [untitledIcsEvent]).map (fun r => (r.event_name, r.link))) =
      [(some "", some "https://ex.org/cal.ics")] ∧
      pyStrip "" = "" ∧
      is_event_like (some "") (some "https://ex.org/cal.ics") = false := by
  decide

/-- A structured page candidate that passes the delivery gate. -/
def gatePageNode : LdNode :=
  { typ := JsonType.str "Event",
    name := some "Downtown Summer Concert Series",
    startDate := StartVal.absent, location := Location.absent,
    description := none, url := some "https://ex.org/events/77",
    identifier := none, atId := none }

/-- Witness for the C1 theorem: the record emitted for a concrete eligible
page candidate satisfies the gate. -/
theorem delivery_gate_page_rss_witness :
    is_event_like
        (pageRecord (fun s => s) "https://ex.org/p" "Org" none false
          gatePageNode).event_name
        (pageRecord (fun s => s) "https://ex.org/p" "Org" none false
          gatePageNode).link = true ∧
      pyStrip ((pageRecord (fun s => s) "https://ex.org/p" "Org" none false
        gatePageNode).event_name.getD "") ≠ "" :=
  delivery_gate_page_rss.1 (fun s => s) "https://ex.org/p" "Org" none false
    [gatePageNode] _ (by decide)

/-- C2 (amended): on every path, `date`, `day` and `time` are either all
absent or all derived from the same parsed instant — never a mix of a raw
unparsed date and a derived weekday.  On the page path `day` is the weekday
of the Denver-local `date` (the claim as stated); on the ICS and RSS paths
`day` is the weekday of the instant's date in its *own* timezone, which can
differ from the weekday of the Denver-local `date` when the conversion
crosses midnight (see the C2 counterexample). -/
theorem date_day_time_same_instant :
    ∀ (digest : String → String) (url sn : String) (dl : Option String)
      (uf : Bool) (ev : LdNode) (ie : IcsEvent) (fe : RssEntry),
      ((pageRecord digest url sn dl uf ev).date = none ∧
        (pageRecord digest url sn dl uf ev).day = none ∧
        (pageRecord digest url sn dl uf ev).time = none ∨
        ∃ p, ev.startDate = StartVal.parsed p ∧
          (pageRecord digest url sn dl uf ev).date =
            some (isoDateOfDay (denverDay p)) ∧
          (pageRecord digest url sn dl uf ev).day =
            some (weekdayNameOf (denverDay p)) ∧
          (pageRecord digest url sn dl uf ev).time =
            some (time12 (denverMinOfDay p))) ∧
      ((icsRecord digest url sn dl ie).date = none ∧
        (icsRecord digest url sn dl ie).day = none ∧
        (icsRecord digest url sn dl ie).time = none ∨
        ∃ p, ie.begin = some p ∧
          (icsRecord digest url sn dl ie).date =
            some (isoDateOfDay (denverDay p)) ∧
          (icsRecord digest url sn dl ie).day =
            some (weekdayNameOf (ownDay p)) ∧
          (icsRecord digest url sn dl ie).time =
            some (time12 (denverMinOfDay p))) ∧
      ((rssRecord digest url sn dl fe).date = none ∧
        (rssRecord digest url sn dl fe).day = none ∧
        (rssRecord digest url sn dl fe).time = none ∨
        ∃ p, fe.start = StartVal.parsed p ∧
          (rssRecord digest url sn dl fe).date =
            some (isoDateOfDay (denverDay p)) ∧
          (rssRecord digest url sn dl fe).day =
            some (weekdayNameOf (ownDay p)) ∧
          (rssRecord digest url sn dl fe).time =
            some (time12 (denverMinOfDay p))) := by
  intro digest url sn dl uf ev ie fe
  refine ⟨?_, ?_, ?_⟩
  · cases h : ev.startDate with
    | absent => left; refine ⟨?_, ?_, ?_⟩ <;>
        simp [pageRecord, iso_date, iso_time, h]
    | unparsable => left; refine ⟨?_, ?_, ?_⟩ <;>
        simp [pageRecord, iso_date, iso_time, h]
    | parsed p =>
        right
        exact ⟨p, rfl, by simp [pageRecord, iso_date, h],
          by simp [pageRecord, h], by simp [pageRecord, iso_time, h]⟩
  · cases h : ie.begin with
    | none => left; refine ⟨?_, ?_, ?_⟩ <;>
        simp [icsRecord, icsStart, iso_date, iso_time, weekday_name, h]
    | some p =>
        right
        exact ⟨p, rfl, by simp [icsRecord, icsStart, iso_date, h],
          by simp [icsRecord, icsStart, weekday_name, h],
          by simp [icsRecord, icsStart, iso_time, h]⟩
  · cases h : fe.start with
    | absent => left; refine ⟨?_, ?_, ?_⟩ <;>
        simp [rssRecord, iso_date, iso_time, weekday_name, h]
    | unparsable => left; refine ⟨?_, ?_, ?_⟩ <;>
        simp [rssRecord, iso_date, iso_time, weekday_name, h]
    | parsed p =>
        right
        exact ⟨p, rfl, by simp [rssRecord, iso_date, h],
          by simp [rssRecord, weekday_name, h],
          by simp [rssRecord, iso_time, h]⟩

/-- The instant 2024-06-02 01:00 UTC: still Sunday 2024-06-02 in UTC, but
Saturday 2024-06-01 19:00 in America/Denver (MDT, UTC-6). -/
def juneInstant : ParsedDT :=
  { utcMin := daysFromCivil 2024 6 2 * 1440 + 60, ownOffsetMin := 0 }

/-- A calendar entry starting at that instant. -/
def icsJuneEvent : IcsEvent :=
  { name := some "Symphony Under The Stars", begin := some juneInstant,
    description := none, location := none, url := none,
    uid := some "uid-1" }

/-- C2 counterexample: for this ICS entry the emitted record's `date` is
the Denver-local date 2024-06-01 — a Saturday — while its `day` is
`"Sunday"`, the weekday of the instant's own (UTC) date: `day` is not the
weekday name of `date` computed in the configured timezone. -/
theorem ics_day_not_weekday_of_date :
    ((ingest_ics_records (fun s => s) "https://ex.org/cal.ics" "Org" none
        [icsJuneEvent]).map (fun r => (r.date, r.day))) =
      [(some (isoDateOfDay (daysFromCivil 2024 6 1)), some "Sunday")] ∧
      weekdayNameOf (daysFromCivil 2024 6 1) = "Saturday" ∧
      ("Sunday" : String) ≠ "Saturday" := by
  decide

/-- An eligible page candidate with the given title and link. -/
def capCand (nm lk : String) : LdNode :=
  { typ := JsonType.str "Event", name := some nm,
    startDate := StartVal.absent, location := Location.absent,
    description := none, url := some lk, identifier := none, atId := none }

/-- C4: no producer path — page, ICS or RSS — ever posts more than
`MAX_POSTS_PER_SOURCE` records for one source, so successful deliveries
cannot exceed the cap and each loop stops as soon as its counter reaches
it; the remaining candidates are simply not processed (nothing reports them
as failures).  With a cap of 2 and five eligible candidates, exactly two
records are delivered. -/
theorem per_source_cap :
    (∀ (digest : String → String) (url sn : String) (dl : Option String)
        (uf : Bool) (evs : List LdNode),
        (ingest_page_records digest url sn dl uf evs).length ≤
          MAX_POSTS_PER_SOURCE) ∧
    (∀ (digest : String → String) (url sn : String) (dl : Option String)
        (events : List IcsEvent),
        (ingest_ics_records digest url sn dl events).length ≤
          MAX_POSTS_PER_SOURCE) ∧
    (∀ (digest : String → String) (url sn : String) (dl : Option String)
        (entries : List RssEntry),
        (ingest_rss_records digest url sn dl entries).length ≤
          MAX_POSTS_PER_SOURCE) ∧
    (pageLoop (fun s => s) "https://ex.org/p" "Org" none false [] 0 2
        [capCand "Downtown Concert Alpha" "https://ex.org/events/1",
         capCand "Downtown Concert Bravo" "https://ex.org/events/2",
         capCand "Downtown Concert Charlie" "https://ex.org/events/3",
         capCand "Downtown Concert Delta" "https://ex.org/events/4",
         capCand "Downtown Concert Echo" "https://ex.org/events/5"]).length
      = 2 := by
  refine ⟨?_, ?_, ?_, ?_⟩
  · intro digest url sn dl uf evs
    have h := pageLoop_length_le digest url sn dl uf evs [] 0
      MAX_POSTS_PER_SOURCE (by simp [MAX_POSTS_PER_SOURCE])
    simpa [ingest_page_records] using h
  · intro digest url sn dl events
    have h := icsLoop_length_le digest url sn dl events 0
      MAX_POSTS_PER_SOURCE (by simp [MAX_POSTS_PER_SOURCE])
    simpa [ingest_ics_records] using h
  · intro digest url sn dl entries
    have h := rssLoop_length_le digest url sn dl entries 0
      MAX_POSTS_PER_SOURCE (by simp [MAX_POSTS_PER_SOURCE])
    simpa [ingest_rss_records] using h
  · decide

/-- C5 (amended): for the page pipeline, a structured place object yields
`location` from its display name (falling back to the source default when
the name is absent or empty) and `address` from the comma-join of its
non-empty street/locality/region components; but a plain-string location is
*discarded* — `location` falls back to the configured default instead of
using the string — with `address` absent; and an absent location also falls
back to the default. -/
theorem location_address_derivation :
    ∀ (digest : String → String) (url sn : String) (dl : Option String)
      (uf : Bool) (ev : LdNode),
      (∀ s, ev.location = Location.str s →
        (pageRecord digest url sn dl uf ev).location = dl ∧
        (pageRecord digest url sn dl uf ev).address = none) ∧
      (ev.location = Location.absent →
        (pageRecord digest url sn dl uf ev).location = dl ∧
        (pageRecord digest url sn dl uf ev).address = none) ∧
      (∀ n a, ev.location = Location.place n a →
        (pageRecord digest url sn dl uf ev).location = pyOr n dl) ∧
      (∀ n a, ev.location = Location.place n (some a) →
        (∀ s : String,
          (a.streetAddress = some s ∨ a.addressLocality = some s ∨
            a.addressRegion = some s) → pyStrip s = s) →
        (pageRecord digest url sn dl uf ev).address = specAddress a) := by
  intro digest url sn dl uf ev
  refine ⟨?_, ?_, ?_, ?_⟩
  · intro s h
    constructor
    · simp [pageRecord, locDict, h, pyOr, truthy]
    · simp [pageRecord, locDict, h]
      rfl
  · intro h
    constructor
    · simp [pageRecord, locDict, h, pyOr, truthy]
    · simp [pageRecord, locDict, h]
      rfl
  · intro n a h
    simp [pageRecord, locDict, h]
  · intro n a h hclean
    have : (pageRecord digest url sn dl uf ev).address =
        addrJoin (some a) := by
      simp [pageRecord, locDict, h]
    rw [this, addrJoin_eq_specAddress a hclean]

/-- A page candidate whose raw location is the plain string
`"Helena Civic Center"`. -/
def plainLocNode : LdNode :=
  { typ := JsonType.str "Event", name := some "Civic Center Gala Night",
    startDate := StartVal.absent,
    location := Location.str "Helena Civic Center", description := none,
    url := some "https://ex.org/events/gala", identifier := none,
    atId := none }

/-- C5 counterexample: with a plain-string raw location the normalized
record's `location` is the source default, not the page's string, so the
string is *not* used directly as the claim states. -/
theorem plain_string_location_discarded :
    (pageRecord (fun s => s) "https://ex.org/p" "Org" (some "Helena, MT")
        false plainLocNode).location = some "Helena, MT" ∧
      (pageRecord (fun s => s) "https://ex.org/p" "Org" (some "Helena, MT")
        false plainLocNode).location ≠ some "Helena Civic Center" ∧
      (pageRecord (fun s => s) "https://ex.org/p" "Org" (some "Helena, MT")
        false plainLocNode).address = none := by
  decide

/-- The structured address of the C5 witness. -/
def parkAddr : PlaceAddr :=
  { streetAddress := some "200 Park Ave", addressLocality := some "Helena",
    addressRegion := some "MT" }

/-- A page candidate carrying a structured place object. -/
def placeNode : LdNode :=
  { typ := JsonType.str "Event", name := some "Riverside Market Days",
    startDate := StartVal.absent,
    location := Location.place (some "Anchor Park") (some parkAddr),
    description := none, url := some "https://ex.org/events/market",
    identifier := none, atId := none }

/-- Witness for the C5 theorem at a concrete structured place: `location`
is the place's display name and `address` the joined components. -/
theorem location_address_derivation_witness :
    (pageRecord (fun s => s) "https://ex.org/p" "Org" none false
        placeNode).location = some "Anchor Park" ∧
      (pageRecord (fun s => s) "https://ex.org/p" "Org" none false
        placeNode).address = specAddress parkAddr := by
  have h := location_address_derivation (fun s => s) "https://ex.org/p"
    "Org" none false placeNode
  constructor
  · have hl := h.2.2.1 (some "Anchor Park") (some parkAddr) rfl
    rw [hl]
    decide
  · exact h.2.2.2 (some "Anchor Park") parkAddr rfl (by
      intro s hs
      rcases hs with hs | hs | hs <;>
        · have : s = (match hs with | _ => s) := rfl
          simp only [parkAddr] at hs
          injection hs with hs2
          rw [← hs2]
          decide)

/-- C6 (amended): dedup within one page batch keys on the lower-cased
trimmed title and the lower-cased *raw* candidate link (before the fallback
to the page URL).  Two raw candidates with identical normalized title and
identical raw link, the first of which passes the delivery gate, yield
exactly one emitted record — the first occurrence — and the later duplicate
is dropped silently. -/
theorem page_batch_dedup :
    ∀ (digest : String → String) (url sn : String) (dl : Option String)
      (uf : Bool) (e1 e2 : LdNode),
      safe_title e1.name = safe_title e2.name →
      e1.url = e2.url →
      is_event_like (some (safe_title e1.name))
        (some (pyOrD e1.url url)) = true →
      ingest_page_records digest url sn dl uf [e1, e2] =
        [pageRecord digest url sn dl uf e1] := by
  intro digest url sn dl uf e1 e2 ht hu hgate
  have htne : safe_title e1.name ≠ "" := by
    intro he
    have h := is_event_like_trim_ne _ _ hgate
    rw [Option.getD_some, he] at h
    exact h rfl
  have hname : (pageRecord digest url sn dl uf e1).event_name =
      some (safe_title e1.name) := rfl
  have hlink : (pageRecord digest url sn dl uf e1).link =
      some (pyOrD e1.url url) := rfl
  have hgate' : ¬(truthy (pageRecord digest url sn dl uf e1).event_name
      = false ∨ is_event_like (pageRecord digest url sn dl uf e1).event_name
        (pageRecord digest url sn dl uf e1).link = false) := by
    rw [hname, hlink]
    push_neg
    constructor
    · simp [truthy, htne]
    · rw [hgate]
      simp
  rw [ingest_page_records, pageLoop]
  rw [if_neg (by simp :
    ¬(safe_title e1.name ≠ "" ∧
      (strLower (safe_title e1.name), strLower (pyOrD e1.url "")) ∈
        ([] : List (String × String))))]
  rw [if_neg hgate']
  rw [if_neg (by simp [MAX_POSTS_PER_SOURCE] : ¬(0 + 1 ≥ MAX_POSTS_PER_SOURCE))]
  rw [pageLoop]
  rw [if_pos ⟨by rw [← ht]; exact htne, by rw [← ht, ← hu]; simp⟩]
  rw [pageLoop]

/-- A candidate with no event-specific link at all. -/
def noLinkNode : LdNode :=
  { typ := JsonType.str "Event",
    name := some "Downtown Summer Concert Series",
    startDate := StartVal.absent, location := Location.absent,
    description := none, url := none, identifier := none, atId := none }

/-- A candidate with the same title whose link is the page URL itself. -/
def pageUrlLinkNode : LdNode :=
  { typ := JsonType.str "Event",
    name := some "Downtown Summer Concert Series",
    startDate := StartVal.absent, location := Location.absent,
    description := none, url := some "https://ex.org/p",
    identifier := none, atId := none }

/-- C6 counterexample: the dedup key uses the candidate's *raw* link
before the fallback to the page URL, so a candidate without a link and a
candidate whose link equals the page URL have different keys and are both
emitted — two distinct canonical records sharing the same lower-cased
(trimmed title, link) pair.  "At most one record emitted per canonical
(title, link) key" fails. -/
theorem dedup_key_uses_raw_link :
    ((ingest_page_records (fun s => s) "https://ex.org/p" "Org" none false
        [noLinkNode, pageUrlLinkNode]).map
        (fun r => (strLower (r.event_name.getD ""),
          strLower (r.link.getD "")))) =
      [("downtown summer concert series", "https://ex.org/p"),
        ("downtown summer concert series", "https://ex.org/p")] ∧
      (ingest_page_records (fun s => s) "https://ex.org/p" "Org" none false
        [noLinkNode, pageUrlLinkNode]).length = 2 ∧
      (ingest_page_records (fun s => s) "https://ex.org/p" "Org" none false
        [noLinkNode, pageUrlLinkNode]).Nodup := by
  refine ⟨by decide, by decide, ?_⟩
  decide

/-- First copy of a duplicated event card. -/
def dupNodeA : LdNode :=
  { typ := JsonType.str "Event",
    name := some "Downtown Summer Concert Series",
    startDate := StartVal.absent, location := Location.absent,
    description := some "Featured listing",
    url := some "https://ex.org/events/dup", identifier := none,
    atId := none }

/-- Second copy of the same card (same title and link, different
description). -/
def dupNodeB : LdNode :=
  { typ := JsonType.str "Event",
    name := some "Downtown Summer Concert Series",
    startDate := StartVal.absent, location := Location.absent,
    description := some "Full list entry",
    url := some "https://ex.org/events/dup", identifier := none,
    atId := none }

/-- Witness for the C6 theorem: two concrete candidates with identical
normalized (title, link) yield exactly the first record. -/
theorem page_batch_dedup_witness :
    ingest_page_records (fun s => s) "https://ex.org/p" "Org" none false
        [dupNodeA, dupNodeB] =
      [pageRecord (fun s => s) "https://ex.org/p" "Org" none false
        dupNodeA] :=
  page_batch_dedup (fun s => s) "https://ex.org/p" "Org" none false
    dupNodeA dupNodeB (by rfl) (by rfl) (by decide)

end Ingest








